import Mathlib

/-!
Verification of the battle engine of Clash of Wizards
(`src/data/characters.ts`, hook `useBattleEngine`).

The TypeScript engine is embedded shallowly:
* numbers are `Int` (JS numbers used only on exact integer arithmetic here);
* the React `state : BattleState | null` is `Option BattleState`; a guard
  that returns without calling `setState` is modelled by returning the
  input state unchanged;
* `Math.random()`-based choice in `enemyTurn` is modelled by an explicit
  `pick : Nat` parameter selecting index `pick % available.length`, which
  ranges over exactly the indices `Math.floor(Math.random() * length)` can
  produce.
-/

/-- An ability value (`Ability` in `types.ts`), as used by the engine:
`name`, `type` (a string tag: "attack" / "heal" / "shield" / other),
`power`, `cooldown`, `currentCooldown`.  The `description` field is
display-only and never read by the engine. -/
structure Ability where
  name : String
  type : String
  power : Int
  cooldown : Int
  currentCooldown : Int
  deriving Repr, DecidableEq

/-- A combatant (`Character` in `types.ts`) restricted to the fields the
engine reads or writes: `name` (log text), `maxHP`, `currentHP`, `shield`
and the ability list.  `image`, `quote` and the always-empty
`statusEffects` placeholder are never consulted by any rule. -/
structure Character where
  name : String
  maxHP : Int
  currentHP : Int
  shield : Int
  abilities : List Ability
  deriving Repr, DecidableEq

/-- The `lastEffect` record of `BattleState`:
`{type : "damage" | "heal" | "shield", target : "player" | "enemy", value}`. -/
structure Effect where
  type : String
  target : String
  value : Int
  deriving Repr, DecidableEq

/-- The `BattleState` interface of `useBattleEngine`. -/
structure BattleState where
  player : Character
  enemy : Character
  turn : Nat
  log : List String
  lastAttacker : Option String
  lastEffect : Option Effect
  gameOver : Bool
  deriving Repr, DecidableEq

/-- The result record of `applyAbility`:
`{updatedSource, updatedTarget, effect?, logEntry}`. -/
structure ApplyResult where
  updatedSource : Character
  updatedTarget : Character
  effect : Option Effect
  logEntry : String
  deriving Repr, DecidableEq

/-- The cooldown update inside `applyAbility` (characters.ts:300-306):
`sourceCopy.abilities.map (a => a.name === ability.name ?
{...a, currentCooldown: a.cooldown} : a.currentCooldown > 0 ?
{...a, currentCooldown: a.currentCooldown - 1} : a)`. -/
def updateCooldowns (abilities : List Ability) (used : Ability) : List Ability :=
  abilities.map fun a =>
    if a.name = used.name then { a with currentCooldown := a.cooldown }
    else if a.currentCooldown > 0 then { a with currentCooldown := a.currentCooldown - 1 }
    else a

/-- `applyAbility(source, target, ability, isPlayer)` (characters.ts:240-316).
The `if (targetCopy.shield && targetCopy.shield > 0)` truthiness guard is
equivalent, on numbers, to `targetCopy.shield > 0`; likewise
`(sourceCopy.shield || 0)` equals `sourceCopy.shield` on numbers (the `|| 0`
only replaces the falsy value `0` by `0`). -/
def applyAbility (source target : Character) (ability : Ability) (isPlayer : Bool) :
    ApplyResult :=
  let logText := source.name ++ " použil " ++ ability.name
  if ability.type = "attack" then
    let damage := ability.power
    let (target1, damage1) :=
      if target.shield > 0 then
        let absorb := min damage target.shield
        ({ target with shield := target.shield - absorb }, damage - absorb)
      else (target, damage)
    let target2 := { target1 with currentHP := max (target1.currentHP - damage1) 0 }
    { updatedSource := { source with abilities := updateCooldowns source.abilities ability }
      updatedTarget := target2
      effect := some { type := "damage",
                       target := if isPlayer then "enemy" else "player",
                       value := damage1 }
      logEntry := logText ++ " a způsobil " ++ toString damage1 ++ " poškození." }
  else if ability.type = "heal" then
    let healed := min ability.power (source.maxHP - source.currentHP)
    let source1 := { source with currentHP := source.currentHP + healed }
    { updatedSource := { source1 with abilities := updateCooldowns source1.abilities ability }
      updatedTarget := target
      effect := some { type := "heal",
                       target := if isPlayer then "player" else "enemy",
                       value := healed }
      logEntry := logText ++ " a vyléčil se o " ++ toString healed ++ " HP." }
  else if ability.type = "shield" then
    let source1 := { source with shield := source.shield + ability.power }
    { updatedSource := { source1 with abilities := updateCooldowns source1.abilities ability }
      updatedTarget := target
      effect := some { type := "shield",
                       target := if isPlayer then "player" else "enemy",
                       value := ability.power }
      logEntry := logText ++ " a získal štít o síle " ++ toString ability.power ++ "." }
  else
    { updatedSource := { source with abilities := updateCooldowns source.abilities ability }
      updatedTarget := target
      effect := none
      logEntry := logText }

/-- Battle-state initialization (the `useEffect` at characters.ts:206-215):
clones both combatants with `shield = 0`, sets `turn = 0`,
`log = ["Souboj začal!"]`, `lastAttacker = null`, `gameOver = false`. -/
def initState (player enemy : Character) : BattleState :=
  { player := { player with shield := 0 }
    enemy := { enemy with shield := 0 }
    turn := 0
    log := ["Souboj začal!"]
    lastAttacker := none
    lastEffect := none
    gameOver := false }

/-- `endTurn(nextState)` (characters.ts:221-230): recomputes `gameOver`
from BOTH combatants' HP and increments `turn`. -/
def endTurn (nextState : BattleState) : BattleState :=
  { nextState with
    turn := nextState.turn + 1
    gameOver := decide (nextState.player.currentHP ≤ 0)
                || decide (nextState.enemy.currentHP ≤ 0) }

/-- `useAbility(ability)` (characters.ts:322-348).  A rejected call performs
no `setState`, i.e. returns the state unchanged. -/
def useAbility (state : Option BattleState) (ability : Ability) : Option BattleState :=
  match state with
  | none => none
  | some s =>
    if s.turn % 2 ≠ 0 || ability.currentCooldown > 0 || s.gameOver then some s
    else
      let r := applyAbility s.player s.enemy ability true
      let nextState : BattleState :=
        { s with
          player := r.updatedSource
          enemy := r.updatedTarget
          log := s.log ++ [r.logEntry]
          lastAttacker := some "player"
          lastEffect := r.effect
          gameOver := decide (r.updatedTarget.currentHP ≤ 0)
          turn := s.turn }
      some (endTurn nextState)

/-- `enemyTurn()` (characters.ts:353-390), with the random index made an
explicit `pick` parameter: the chosen ability is
`available[pick % available.length]`. -/
def enemyTurn (state : Option BattleState) (pick : Nat) : Option BattleState :=
  match state with
  | none => none
  | some s =>
    if s.turn % 2 ≠ 1 || s.gameOver then some s
    else
      let available := s.enemy.abilities.filter fun a => a.currentCooldown = 0
      if h : available.length = 0 then some s
      else
        let ability := available.get ⟨pick % available.length,
          Nat.mod_lt _ (Nat.pos_of_ne_zero h)⟩
        let r := applyAbility s.enemy s.player ability false
        let nextState : BattleState :=
          { s with
            player := r.updatedTarget
            enemy := r.updatedSource
            log := s.log ++ [r.logEntry]
            lastAttacker := some "enemy"
            lastEffect := r.effect
            gameOver := decide (r.updatedTarget.currentHP ≤ 0)
            turn := s.turn }
        some (endTurn nextState)

/-! ### Concrete sample data (from `src/data/characters.ts`) used by witnesses -/

/-- "Flame Lash" from characters.ts: attack, power 20, cooldown 0. -/
def flameLash : Ability :=
  { name := "Flame Lash", type := "attack", power := 20, cooldown := 0, currentCooldown := 0 }

/-- "Aegis Ward" from characters.ts: shield, power 35, cooldown 2. -/
def aegisWard : Ability :=
  { name := "Aegis Ward", type := "shield", power := 35, cooldown := 2, currentCooldown := 0 }

/-- "Vital Surge" from characters.ts: heal, power 25, cooldown 3. -/
def vitalSurge : Ability :=
  { name := "Vital Surge", type := "heal", power := 25, cooldown := 3, currentCooldown := 0 }

/-- "Ember Vortex" from characters.ts: attack, power 35, cooldown 4. -/
def emberVortex : Ability :=
  { name := "Ember Vortex", type := "attack", power := 35, cooldown := 4, currentCooldown := 0 }

/-- Valdrin Embercloak (characters.ts), with the engine-relevant fields and
the first four of his abilities. -/
def valdrin : Character :=
  { name := "Valdrin Embercloak", maxHP := 100, currentHP := 100, shield := 0,
    abilities := [flameLash, aegisWard, vitalSurge, emberVortex] }

/-- Elyndra Moonshade (characters.ts) with shield 15, as the attacked target
of Scenario B of the spec. -/
def elyndraShielded : Character :=
  { name := "Elyndra Moonshade", maxHP := 90, currentHP := 90, shield := 15,
    abilities := [flameLash, aegisWard, vitalSurge] }

/-! ### Claims -/

/-- C1: for every attack ability resolved by `applyAbility` against a target
with shield `s ≥ 0` and currentHP `h`, where the ability's power is
nonnegative: the damage applied to HP (the effect's value) equals
`max 0 (power - min power s)`, the target's shield afterwards equals
`max 0 (s - power)`, the target's currentHP afterwards equals
`max 0 (h - damage_applied)`, and the source's currentHP and shield are
unchanged. -/
theorem applyAbility_attack_spec (source target : Character) (ability : Ability)
    (isPlayer : Bool) (hty : ability.type = "attack")
    (hpow : 0 ≤ ability.power) (hsh : 0 ≤ target.shield) :
    (applyAbility source target ability isPlayer).updatedTarget.shield
        = max 0 (target.shield - ability.power)
    ∧ (applyAbility source target ability isPlayer).updatedTarget.currentHP
        = max 0 (target.currentHP - max 0 (ability.power - min ability.power target.shield))
    ∧ (applyAbility source target ability isPlayer).effect
        = some { type := "damage",
                 target := if isPlayer then "enemy" else "player",
                 value := max 0 (ability.power - min ability.power target.shield) }
    ∧ (applyAbility source target ability isPlayer).updatedSource.currentHP
        = source.currentHP
    ∧ (applyAbility source target ability isPlayer).updatedSource.shield
        = source.shield := by
  by_cases h : target.shield > 0 <;>
    simp only [applyAbility, hty, if_true, if_pos, h, if_false, reduceIte,
      Option.some.injEq, Effect.mk.injEq, and_true, true_and] <;>
    omega

/-- Witness for C1: Scenario B of the spec — Valdrin's Flame Lash (power 20)
against a target with shield 15 and HP 90 empties the shield and deals 5 HP
damage. -/
theorem applyAbility_attack_spec_witness :
    flameLash.type = "attack" ∧ (0:Int) ≤ flameLash.power
    ∧ (0:Int) ≤ elyndraShielded.shield
    ∧ ((applyAbility valdrin elyndraShielded flameLash true).updatedTarget.shield
        = max 0 (elyndraShielded.shield - flameLash.power)
      ∧ (applyAbility valdrin elyndraShielded flameLash true).updatedTarget.currentHP
        = max 0 (elyndraShielded.currentHP
            - max 0 (flameLash.power - min flameLash.power elyndraShielded.shield))
      ∧ (applyAbility valdrin elyndraShielded flameLash true).effect
        = some { type := "damage", target := "enemy",
                 value := max 0 (flameLash.power - min flameLash.power elyndraShielded.shield) }
      ∧ (applyAbility valdrin elyndraShielded flameLash true).updatedSource.currentHP
        = valdrin.currentHP
      ∧ (applyAbility valdrin elyndraShielded flameLash true).updatedSource.shield
        = valdrin.shield) :=
  ⟨rfl, by decide, by decide,
    applyAbility_attack_spec valdrin elyndraShielded flameLash true rfl
      (by decide) (by decide)⟩

/-- Valdrin at 90/100 HP: the healing target of Scenario C of the spec. -/
def valdrinHurt : Character := { valdrin with currentHP := 90 }

/-- C5: for every heal ability resolved by `applyAbility`,
`healed = min power (maxHP - currentHP_before)` and
`currentHP_after = currentHP_before + healed`, so under the precondition
`currentHP_before ≤ maxHP` the source's currentHP never exceeds maxHP; the
effect record is {heal, source side, healed} and the target is unchanged. -/
theorem applyAbility_heal_spec (source target : Character) (ability : Ability)
    (isPlayer : Bool) (hty : ability.type = "heal") :
    (applyAbility source target ability isPlayer).updatedSource.currentHP
        = source.currentHP + min ability.power (source.maxHP - source.currentHP)
    ∧ (source.currentHP ≤ source.maxHP →
        (applyAbility source target ability isPlayer).updatedSource.currentHP
          ≤ source.maxHP)
    ∧ (applyAbility source target ability isPlayer).effect
        = some { type := "heal",
                 target := if isPlayer then "player" else "enemy",
                 value := min ability.power (source.maxHP - source.currentHP) }
    ∧ (applyAbility source target ability isPlayer).updatedTarget = target := by
  simp only [applyAbility, hty, String.reduceEq, reduceIte,
    Option.some.injEq, Effect.mk.injEq, and_true, true_and]
  omega

/-- Witness for C5: Scenario C of the spec — Vital Surge (power 25) on
Valdrin at 90/100 HP heals exactly 10, capping HP at 100. -/
theorem applyAbility_heal_spec_witness :
    vitalSurge.type = "heal"
    ∧ ((applyAbility valdrinHurt elyndraShielded vitalSurge true).updatedSource.currentHP
        = valdrinHurt.currentHP
            + min vitalSurge.power (valdrinHurt.maxHP - valdrinHurt.currentHP)
      ∧ (valdrinHurt.currentHP ≤ valdrinHurt.maxHP →
          (applyAbility valdrinHurt elyndraShielded vitalSurge true).updatedSource.currentHP
            ≤ valdrinHurt.maxHP)
      ∧ (applyAbility valdrinHurt elyndraShielded vitalSurge true).effect
        = some { type := "heal", target := "player",
                 value := min vitalSurge.power (valdrinHurt.maxHP - valdrinHurt.currentHP) }
      ∧ (applyAbility valdrinHurt elyndraShielded vitalSurge true).updatedTarget
        = elyndraShielded) :=
  ⟨rfl, applyAbility_heal_spec valdrinHurt elyndraShielded vitalSurge true rfl⟩

/-- The `updatedSource.abilities` of `applyAbility` is `updateCooldowns` of
the source's abilities, for every ability type (all four branches). -/
theorem applyAbility_updatedSource_abilities (source target : Character)
    (ability : Ability) (isPlayer : Bool) :
    (applyAbility source target ability isPlayer).updatedSource.abilities
      = updateCooldowns source.abilities ability := by
  simp only [applyAbility]
  split_ifs <;> rfl

/-- In a list of abilities with pairwise-distinct names, an element whose
name equals the name of a member `A` is `A` itself. -/
theorem name_unique (l : List Ability)
    (hnodup : l.Pairwise fun a b => a.name ≠ b.name)
    (A b : Ability) (hA : A ∈ l) (hb : b ∈ l) (hname : b.name = A.name) : b = A := by
  induction l with
  | nil => cases hA
  | cons hd tl ih =>
    rcases List.pairwise_cons.mp hnodup with ⟨hhd, htl⟩
    rcases List.mem_cons.mp hA with rfl | hA' <;>
      rcases List.mem_cons.mp hb with rfl | hb'
    · rfl
    · exact absurd hname (Ne.symm (hhd _ hb'))
    · exact absurd hname (hhd _ hA')
    · exact ih htl hA' hb'

/-- C2: after any `applyAbility` call with ability `A` taken from a source
whose ability names are pairwise distinct, in the returned source's ability
list the entry for `A` has `currentCooldown = A.cooldown`, every other
ability whose prior `currentCooldown` was `> 0` has it decreased by exactly
1, every other ability already at 0 remains at 0 — and this holds for every
ability type (`applyAbility` is entered with an arbitrary `type` string, so
attack, heal, shield and unrecognized types are all covered). -/
theorem applyAbility_cooldown_law (source target : Character) (ability : Ability)
    (isPlayer : Bool)
    (hmem : ability ∈ source.abilities)
    (hnodup : source.abilities.Pairwise fun a b => a.name ≠ b.name)
    (i : Nat) (b : Ability) (hib : source.abilities[i]? = some b) :
    (applyAbility source target ability isPlayer).updatedSource.abilities.length
        = source.abilities.length
    ∧ (b.name = ability.name →
        (applyAbility source target ability isPlayer).updatedSource.abilities[i]?
          = some { ability with currentCooldown := ability.cooldown })
    ∧ (b.name ≠ ability.name → b.currentCooldown > 0 →
        (applyAbility source target ability isPlayer).updatedSource.abilities[i]?
          = some { b with currentCooldown := b.currentCooldown - 1 })
    ∧ (b.name ≠ ability.name → b.currentCooldown = 0 →
        (applyAbility source target ability isPlayer).updatedSource.abilities[i]?
          = some b) := by
  rw [applyAbility_updatedSource_abilities]
  refine ⟨by simp [updateCooldowns], ?_, ?_, ?_⟩
  · intro hname
    have hb : b = ability := name_unique _ hnodup _ _ hmem (List.getElem?_mem hib) hname
    subst hb
    simp [updateCooldowns, List.getElem?_map, hib, hname]
  · intro hname hpos
    simp [updateCooldowns, List.getElem?_map, hib, hname, hpos]
  · intro hname hzero
    simp [updateCooldowns, List.getElem?_map, hib, hname, hzero]

/-- Valdrin mid-battle, with Aegis Ward on cooldown 2 and Ember Vortex on
cooldown 3 (names pairwise distinct, as in the game data). -/
def valdrinMid : Character :=
  { valdrin with abilities :=
      [flameLash,
       { aegisWard with currentCooldown := 2 },
       vitalSurge,
       { emberVortex with currentCooldown := 3 }] }

/-- Witness for C2: Valdrin uses Flame Lash; the entry at index 1 (Aegis
Ward, countdown 2) is not the used ability and is decremented to 1. -/
theorem applyAbility_cooldown_law_witness :
    flameLash ∈ valdrinMid.abilities
    ∧ valdrinMid.abilities.Pairwise (fun a b => a.name ≠ b.name)
    ∧ valdrinMid.abilities[1]? = some { aegisWard with currentCooldown := 2 }
    ∧ ((applyAbility valdrinMid elyndraShielded flameLash true).updatedSource.abilities.length
        = valdrinMid.abilities.length
      ∧ (({ aegisWard with currentCooldown := 2 } : Ability).name = flameLash.name →
          (applyAbility valdrinMid elyndraShielded flameLash true).updatedSource.abilities[1]?
            = some { flameLash with currentCooldown := flameLash.cooldown })
      ∧ (({ aegisWard with currentCooldown := 2 } : Ability).name ≠ flameLash.name →
          ({ aegisWard with currentCooldown := 2 } : Ability).currentCooldown > 0 →
          (applyAbility valdrinMid elyndraShielded flameLash true).updatedSource.abilities[1]?
            = some { aegisWard with currentCooldown := 1 })
      ∧ (({ aegisWard with currentCooldown := 2 } : Ability).name ≠ flameLash.name →
          ({ aegisWard with currentCooldown := 2 } : Ability).currentCooldown = 0 →
          (applyAbility valdrinMid elyndraShielded flameLash true).updatedSource.abilities[1]?
            = some { aegisWard with currentCooldown := 2 })) :=
  ⟨by decide, by decide, by decide,
    applyAbility_cooldown_law valdrinMid elyndraShielded flameLash true
      (by decide) (by decide) 1 { aegisWard with currentCooldown := 2 } (by decide)⟩

/-- Valdrin with a duplicated "Flame Lash" name: the second copy is on
countdown 3 (cooldown 0).  Used to exhibit the by-name cooldown reset. -/
def valdrinDup : Character :=
  { valdrin with abilities := [flameLash, { flameLash with currentCooldown := 3 }] }

/-- C10: `applyAbility` identifies the used ability by name equality — every
ability in the source's list whose name equals the used ability's name is
reset to its own full cooldown (and never decremented by this action),
whatever its prior countdown; no distinctness of names is assumed.  (Under
pairwise-distinct names this specializes to the per-ability cooldown law of
`applyAbility_cooldown_law`.) -/
theorem applyAbility_cooldown_by_name (source target : Character) (ability : Ability)
    (isPlayer : Bool) (i : Nat) (b : Ability)
    (hib : source.abilities[i]? = some b) (hname : b.name = ability.name) :
    (applyAbility source target ability isPlayer).updatedSource.abilities[i]?
      = some { b with currentCooldown := b.cooldown } := by
  rw [applyAbility_updatedSource_abilities]
  simp [updateCooldowns, List.getElem?_map, hib, hname]

/-- Witness for C10: with two abilities both named "Flame Lash", the second
(countdown 3, cooldown 0) is reset to 0 by using the first — not
decremented to 2. -/
theorem applyAbility_cooldown_by_name_witness :
    valdrinDup.abilities[1]? = some { flameLash with currentCooldown := 3 }
    ∧ ({ flameLash with currentCooldown := 3 } : Ability).name = flameLash.name
    ∧ (applyAbility valdrinDup elyndraShielded flameLash true).updatedSource.abilities[1]?
        = some { flameLash with currentCooldown := flameLash.cooldown } :=
  ⟨by decide, by decide,
    applyAbility_cooldown_by_name valdrinDup elyndraShielded flameLash true 1
      { flameLash with currentCooldown := 3 } (by decide) (by decide)⟩

/-- A finished battle state: Valdrin versus shielded Elyndra with
`gameOver = true`. -/
def overState : BattleState :=
  { initState valdrin elyndraShielded with gameOver := true }

/-- C4: `useAbility` leaves the battle state unchanged whenever the state is
uninitialized, the turn is odd, the passed ability's `currentCooldown > 0`,
or `gameOver` is true; `enemyTurn` likewise whenever uninitialized, the turn
is even, or `gameOver` is true.  In particular once `gameOver` is true no
subsequent call of either operation changes `currentHP`, `shield`, `turn`
or `log`: the whole state is returned as is. -/
theorem engine_rejects_invalid (ability : Ability) (pick : Nat) (s : BattleState) :
    useAbility none ability = none
    ∧ enemyTurn none pick = none
    ∧ (s.turn % 2 ≠ 0 ∨ ability.currentCooldown > 0 ∨ s.gameOver = true →
        useAbility (some s) ability = some s)
    ∧ (s.turn % 2 ≠ 1 ∨ s.gameOver = true →
        enemyTurn (some s) pick = some s) := by
  refine ⟨rfl, rfl, ?_, ?_⟩
  · intro h
    rcases h with h | h | h <;> simp [useAbility, h]
  · intro h
    rcases h with h | h <;> simp [enemyTurn, h]

/-- Witness for C4: with `gameOver = true` (turn 0), both operations return
the state unchanged, and both map the uninitialized state to itself. -/
theorem engine_rejects_invalid_witness :
    useAbility none flameLash = none
    ∧ enemyTurn none 0 = none
    ∧ useAbility (some overState) flameLash = some overState
    ∧ enemyTurn (some overState) 0 = some overState :=
  ⟨(engine_rejects_invalid flameLash 0 overState).1,
   (engine_rejects_invalid flameLash 0 overState).2.1,
   (engine_rejects_invalid flameLash 0 overState).2.2.1 (Or.inr (Or.inr rfl)),
   (engine_rejects_invalid flameLash 0 overState).2.2.2 (Or.inr rfl)⟩

/-- C6: if it is the enemy's move (odd turn, game not over) and every one of
the enemy's abilities has `currentCooldown > 0`, then `enemyTurn` is a
complete no-op: the state — in particular the log, both combatants' HP and
shield, and the (still odd) turn counter — is returned unchanged. -/
theorem enemyTurn_all_on_cooldown (s : BattleState) (pick : Nat)
    (hturn : s.turn % 2 = 1) (hgo : s.gameOver = false)
    (hcd : ∀ a ∈ s.enemy.abilities, a.currentCooldown > 0) :
    enemyTurn (some s) pick = some s := by
  have hfil : (s.enemy.abilities.filter fun a => decide (a.currentCooldown = 0)) = [] := by
    rw [List.filter_eq_nil_iff]
    intro a ha
    simp only [decide_eq_true_eq]
    exact (hcd a ha).ne'
  simp [enemyTurn, hturn, hgo, hfil]

/-- An enemy whose every ability is on cooldown. -/
def lockedEnemy : Character :=
  { name := "Elyndra Moonshade", maxHP := 90, currentHP := 90, shield := 0,
    abilities := [{ flameLash with currentCooldown := 1 },
                  { aegisWard with currentCooldown := 2 }] }

/-- A battle on turn 1 (enemy's move) against a fully cooldown-locked enemy. -/
def lockedState : BattleState :=
  { initState valdrin lockedEnemy with turn := 1 }

/-- Witness for C6: on turn 1, with every enemy ability on cooldown,
`enemyTurn` returns the state unchanged. -/
theorem enemyTurn_all_on_cooldown_witness :
    lockedState.turn % 2 = 1 ∧ lockedState.gameOver = false
    ∧ (∀ a ∈ lockedState.enemy.abilities, a.currentCooldown > 0)
    ∧ enemyTurn (some lockedState) 0 = some lockedState :=
  ⟨by decide, by decide, by decide,
    enemyTurn_all_on_cooldown lockedState 0 (by decide) (by decide) (by decide)⟩

/-- The freshly initialized battle: Valdrin versus shielded Elyndra, turn 0. -/
def state0 : BattleState := initState valdrin elyndraShielded

/-- The state after Valdrin opens with Flame Lash on turn 0. -/
def state1 : BattleState := (useAbility (some state0) flameLash).getD state0

/-- C7: `useAbility` mutates the state only when `turn % 2 = 0` and
`enemyTurn` only when `turn % 2 = 1`; every mutation performed by either
operation increases `turn` by exactly 1 and appends exactly one entry to the
log, preserving all prior entries; every non-mutating call (guards and the
enemy-stall no-op included) returns the state unchanged. -/
theorem turn_parity_law (s : BattleState) (ability : Ability) (pick : Nat) :
    (useAbility (some s) ability ≠ some s → s.turn % 2 = 0)
    ∧ (enemyTurn (some s) pick ≠ some s → s.turn % 2 = 1)
    ∧ (∀ s', useAbility (some s) ability = some s' →
        s' = s ∨ (s'.turn = s.turn + 1 ∧ ∃ e, s'.log = s.log ++ [e]))
    ∧ (∀ s', enemyTurn (some s) pick = some s' →
        s' = s ∨ (s'.turn = s.turn + 1 ∧ ∃ e, s'.log = s.log ++ [e])) := by
  refine ⟨?_, ?_, ?_, ?_⟩
  · intro hne
    by_contra h0
    exact hne (by simp [useAbility, h0])
  · intro hne
    by_contra h1
    exact hne (by simp [enemyTurn, h1])
  · intro s' h
    simp only [useAbility] at h
    split at h
    · exact Or.inl (Option.some.inj h).symm
    · right
      rw [← Option.some.inj h]
      exact ⟨rfl, (applyAbility s.player s.enemy ability true).logEntry, rfl⟩
  · intro s' h
    simp only [enemyTurn] at h
    split at h
    · exact Or.inl (Option.some.inj h).symm
    · split at h
      · exact Or.inl (Option.some.inj h).symm
      · right
        rw [← Option.some.inj h]
        exact ⟨rfl, _, rfl⟩

/-- Witness for C7: on turn 0 the opening Flame Lash mutates the state, the
turn parity is even, and the mutated state has `turn = 1` with exactly one
appended log entry. -/
theorem turn_parity_law_witness :
    useAbility (some state0) flameLash ≠ some state0
    ∧ state0.turn % 2 = 0
    ∧ useAbility (some state0) flameLash = some state1
    ∧ (state1 = state0
        ∨ (state1.turn = state0.turn + 1 ∧ ∃ e, state1.log = state0.log ++ [e])) :=
  ⟨by decide, (turn_parity_law state0 flameLash 0).1 (by decide), by decide,
   (turn_parity_law state0 flameLash 0).2.2.1 state1 (by decide)⟩

/-- Counterexample to C3: initialize with a player already at 0 HP (the
engine accepts this, see C8).  The player's opening Flame Lash succeeds and
leaves the enemy at 70 HP, yet `gameOver` comes out `true`: `endTurn` reads
the acting side's own nonpositive HP, not the enemy's post-action HP alone. -/
theorem useAbility_gameOver_target_only_cex :
    ((useAbility (some (initState { valdrin with currentHP := 0 } elyndraShielded)) flameLash).map
      fun s' => (s'.gameOver, decide (s'.enemy.currentHP ≤ 0)))
      = some (true, false) := by decide

/-- C3 (amended): after every successful (non-rejected, non-stall) action,
`gameOver` equals the disjunction of BOTH sides' post-action `HP ≤ 0`
checks — `endTurn` recomputes it from player and enemy alike, so the acting
side's own nonpositive HP also makes `gameOver` true on its own action. -/
theorem gameOver_recomputed_both_sides (s : BattleState) (ability : Ability) (pick : Nat)
    (s' : BattleState) :
    (s.turn % 2 = 0 → ability.currentCooldown ≤ 0 → s.gameOver = false →
      useAbility (some s) ability = some s' →
      s'.gameOver = (decide (s'.player.currentHP ≤ 0) || decide (s'.enemy.currentHP ≤ 0)))
    ∧ (s.turn % 2 = 1 → s.gameOver = false → s' ≠ s →
      enemyTurn (some s) pick = some s' →
      s'.gameOver = (decide (s'.player.currentHP ≤ 0) || decide (s'.enemy.currentHP ≤ 0))) := by
  constructor
  · intro ht hcd hgo h
    have hguard : (decide (s.turn % 2 ≠ 0) || decide (ability.currentCooldown > 0)
        || s.gameOver) = false := by
      simp [ht, hgo]
      omega
    simp only [useAbility, hguard, Bool.false_eq_true, if_false] at h
    rw [← Option.some.inj h]
    rfl
  · intro ht hgo hne h
    have hguard : (decide (s.turn % 2 ≠ 1) || s.gameOver) = false := by simp [ht, hgo]
    simp only [enemyTurn, hguard, Bool.false_eq_true, if_false] at h
    split at h
    · exact absurd (Option.some.inj h).symm hne
    · rw [← Option.some.inj h]
      rfl

/-- The state after the enemy answers Flame Lash (pick 0) on turn 1. -/
def state2 : BattleState := (enemyTurn (some state1) 0).getD state1

/-- Witness for the amended C3: both the player's turn-0 Flame Lash and the
enemy's turn-1 answer yield `gameOver = (player HP ≤ 0) || (enemy HP ≤ 0)`. -/
theorem gameOver_recomputed_both_sides_witness :
    state0.turn % 2 = 0 ∧ flameLash.currentCooldown ≤ 0 ∧ state0.gameOver = false
    ∧ useAbility (some state0) flameLash = some state1
    ∧ state1.gameOver
        = (decide (state1.player.currentHP ≤ 0) || decide (state1.enemy.currentHP ≤ 0))
    ∧ state1.turn % 2 = 1 ∧ state1.gameOver = false ∧ state2 ≠ state1
    ∧ enemyTurn (some state1) 0 = some state2
    ∧ state2.gameOver
        = (decide (state2.player.currentHP ≤ 0) || decide (state2.enemy.currentHP ≤ 0)) :=
  ⟨by decide, by decide, by decide, by decide,
   (gameOver_recomputed_both_sides state0 flameLash 0 state1).1
     (by decide) (by decide) (by decide) (by decide),
   by decide, by decide, by decide, by decide,
   (gameOver_recomputed_both_sides state1 flameLash 0 state2).2
     (by decide) (by decide) (by decide) (by decide)⟩

/-- C8: initialization sets `gameOver = false` (and `turn = 0`)
unconditionally, for every supplied player and enemy regardless of their
`currentHP` — a dead player or a dead enemy included — and a `useAbility`
call with an off-cooldown ability is then accepted and mutates the state
(acting with a dead combatant). -/
theorem init_ignores_dead_combatants (p e : Character) (ability : Ability) :
    (initState p e).gameOver = false
    ∧ (initState p e).turn = 0
    ∧ (ability.currentCooldown ≤ 0 →
        ∃ s', useAbility (some (initState p e)) ability = some s'
          ∧ s'.turn = 1 ∧ s' ≠ initState p e) := by
  refine ⟨rfl, rfl, fun hcd => ?_⟩
  have hguard : (decide ((initState p e).turn % 2 ≠ 0)
      || decide (ability.currentCooldown > 0) || (initState p e).gameOver) = false := by
    simp [initState]
    omega
  simp only [useAbility, hguard, Bool.false_eq_true, if_false]
  refine ⟨_, rfl, rfl, fun h => ?_⟩
  have h2 := congrArg BattleState.turn h
  simp [endTurn, initState] at h2

/-- Witness for C8: a dead Valdrin (0 HP) versus a live Elyndra, and a live
Valdrin versus a dead Elyndra, both give a turn-0, `gameOver = false`
battle in which Flame Lash is accepted. -/
theorem init_ignores_dead_combatants_witness :
    flameLash.currentCooldown ≤ 0
    ∧ ((initState { valdrin with currentHP := 0 } elyndraShielded).gameOver = false
      ∧ (initState { valdrin with currentHP := 0 } elyndraShielded).turn = 0
      ∧ ∃ s', useAbility (some (initState { valdrin with currentHP := 0 } elyndraShielded))
            flameLash = some s'
          ∧ s'.turn = 1 ∧ s' ≠ initState { valdrin with currentHP := 0 } elyndraShielded)
    ∧ ((initState valdrin { elyndraShielded with currentHP := 0 }).gameOver = false
      ∧ (initState valdrin { elyndraShielded with currentHP := 0 }).turn = 0
      ∧ ∃ s', useAbility (some (initState valdrin { elyndraShielded with currentHP := 0 }))
            flameLash = some s'
          ∧ s'.turn = 1 ∧ s' ≠ initState valdrin { elyndraShielded with currentHP := 0 }) :=
  ⟨by decide,
   ⟨(init_ignores_dead_combatants { valdrin with currentHP := 0 } elyndraShielded flameLash).1,
    (init_ignores_dead_combatants { valdrin with currentHP := 0 } elyndraShielded flameLash).2.1,
    (init_ignores_dead_combatants { valdrin with currentHP := 0 } elyndraShielded
      flameLash).2.2 (by decide)⟩,
   ⟨(init_ignores_dead_combatants valdrin { elyndraShielded with currentHP := 0 } flameLash).1,
    (init_ignores_dead_combatants valdrin { elyndraShielded with currentHP := 0 } flameLash).2.1,
    (init_ignores_dead_combatants valdrin { elyndraShielded with currentHP := 0 }
      flameLash).2.2 (by decide)⟩⟩

/-- An ability belonging to no character in the game data. -/
def rogueBolt : Ability :=
  { name := "Rogue Bolt", type := "attack", power := 999, cooldown := 0, currentCooldown := 0 }

/-- C9: `useAbility` validates only the ability value it is passed — the
cooldown guard reads the argument's own `currentCooldown` and no membership
check against the player's ability list is made, so any ability value with
`currentCooldown ≤ 0` is applied (state mutated: turn advanced, log grown)
when the turn is even, the game is not over and the state is initialized,
even if the ability is not one of the player's abilities. -/
theorem useAbility_no_membership_check (s : BattleState) (ability : Ability)
    (ht : s.turn % 2 = 0) (hgo : s.gameOver = false) (hcd : ability.currentCooldown ≤ 0)
    (hnotmem : ability ∉ s.player.abilities) :
    ∃ s', useAbility (some s) ability = some s' ∧ s'.turn = s.turn + 1
      ∧ ∃ e, s'.log = s.log ++ [e] := by
  have hguard : (decide (s.turn % 2 ≠ 0)
      || decide (ability.currentCooldown > 0) || s.gameOver) = false := by
    simp [ht, hgo]
    omega
  simp only [useAbility, hguard, Bool.false_eq_true, if_false]
  exact ⟨_, rfl, rfl, _, rfl⟩

/-- Witness for C9: "Rogue Bolt" is not among Valdrin's abilities, yet it is
accepted on turn 0 and mutates the state. -/
theorem useAbility_no_membership_check_witness :
    state0.turn % 2 = 0 ∧ state0.gameOver = false
    ∧ rogueBolt.currentCooldown ≤ 0 ∧ rogueBolt ∉ state0.player.abilities
    ∧ ∃ s', useAbility (some state0) rogueBolt = some s' ∧ s'.turn = state0.turn + 1
        ∧ ∃ e, s'.log = state0.log ++ [e] :=
  ⟨by decide, by decide, by decide, by decide,
    useAbility_no_membership_check state0 rogueBolt
      (by decide) (by decide) (by decide) (by decide)⟩

/-- Counterexample to C2 as universally stated: with two abilities both
named "Flame Lash" (the second on countdown 3), using the first resets the
second to countdown 0 instead of decrementing it to 2 — `applyAbility`
matches the used ability by name, so a same-named other ability is reset,
not decreased by exactly 1. -/
theorem applyAbility_cooldown_law_cex :
    (valdrinDup.abilities[1]?).map Ability.currentCooldown = some 3
    ∧ ((applyAbility valdrinDup elyndraShielded flameLash true).updatedSource.abilities[1]?).map
        Ability.currentCooldown = some 0 := by decide
